import Mathlib

/-!
Shallow embedding of the smart-task-tracker backend (src/api/server.js and
the mongoose schemas in src/api/models) and proofs about its derived-data
logic: the status-transition rule of PATCH /tasks/:id, the streak and
weekly-focus computations of GET /stats/overview, the stop-focus duration
computation, the task filters of GET /tasks, and the error paths.

Modelling conventions:
* Times are integer milliseconds since the Unix epoch, in UTC.
* The server process runs with a fixed local-time offset `tz` (local time =
  UTC + `tz` milliseconds); JS `Date` methods that use local time
  (`setHours(0,0,0,0)`, `setDate`) are modelled with `tz`, methods that use
  UTC (`toISOString`, MongoDB `$dateToString` without a timezone) ignore it.
* A MongoDB collection is a list of documents; `_id` is a `String`.
* Fallible handlers return `Except (Nat × String) α` (HTTP status and error
  message) paired with the collection after the request.
-/

namespace SmartTaskTracker

/-! ## Time model -/

def msPerDay : Int := 86400000

/-- Local midnight before `now`, as a UTC timestamp: models
`startOfDay()` in server.js (`setHours(0,0,0,0)` acts in local time,
i.e. on `now + tz`). -/
def startOfDay (tz now : Int) : Int :=
  ((now + tz).fdiv msPerDay) * msPerDay - tz

/-- Models `startOfNDaysAgo(n)` in server.js: local midnight `n` days
before today's local midnight. -/
def startOfNDaysAgo (tz now : Int) (n : Nat) : Int :=
  startOfDay tz now - n * msPerDay

/-- The UTC calendar-day index of a timestamp. This is the day shown both by
`Date.prototype.toISOString().slice(0, 10)` and by MongoDB
`$dateToString` with format `%Y-%m-%d` (both render the date in UTC), with
the ten-character date string represented by its day number. -/
def utcDay (t : Int) : Int := t.fdiv msPerDay

/-! ## Documents (mongoose schemas in src/api/models) -/

/-- A Task document. Fields and defaults follow the task schema:
`title` required, `notes` defaults to `""`, `status` is one of
`todo | doing | done` (default `todo`), `priority` one of 1..3 (default 2),
`dueDate` and `completedAt` default to null, `tags` defaults to `[]`;
`createdAt` / `updatedAt` are managed by `timestamps: true`. -/
structure Task where
  id : String
  title : String
  notes : String
  status : String
  priority : Int
  dueDate : Option Int
  tags : List String
  completedAt : Option Int
  createdAt : Int
  updatedAt : Int
deriving DecidableEq, Repr

/-- A FocusSession document (focus schema): optional weak `taskId`
reference, required `startedAt`, `endedAt`, `durationMin`, plus the
store-managed timestamps. -/
structure FocusSession where
  id : String
  taskId : Option String
  startedAt : Int
  endedAt : Int
  durationMin : Int
  createdAt : Int
  updatedAt : Int
deriving DecidableEq, Repr

/-- Task-schema enum for `status`. -/
def validStatus (s : String) : Bool := ["todo", "doing", "done"].contains s

/-- Task-schema enum for `priority`. -/
def validPriority (p : Int) : Bool := [1, 2, 3].contains p

/-- Mongoose document validation for a Task being created: `title` is
required (an empty string fails the `required` validator), `status` and
`priority` must lie in their schema enums. -/
def taskSchemaValid (t : Task) : Bool :=
  !(t.title == "") && validStatus t.status && validPriority t.priority

/-! ## JS helpers -/

def isHexDigit (c : Char) : Bool :=
  c.isDigit || ('a' ≤ c && c ≤ 'f') || ('A' ≤ c && c ≤ 'F')

/-- Models `mongoose.Types.ObjectId.isValid`: true for 24-character hex
strings and for arbitrary 12-character strings. -/
def isValidObjectId (s : String) : Bool :=
  s.length == 12 || (s.length == 24 && s.data.all isHexDigit)

/-- Models `String.prototype.trim` (whitespace stripped from both ends),
written structurally so that it evaluates in the kernel. -/
def jsTrim (s : String) : String :=
  String.mk (((s.data.dropWhile Char.isWhitespace).reverse.dropWhile
    Char.isWhitespace).reverse)

/-- Value of a list of decimal digits, `none` when empty or when any
character is not a digit. -/
def digitsVal : List Char → Option Nat
  | [] => none
  | cs =>
    if cs.all Char.isDigit then
      some (cs.foldl (fun a c => 10 * a + (c.toNat - 48)) 0)
    else none

/-- Models `Number(s)` for the decimal-integer strings the API meets in
practice: an optional minus sign and decimal digits parse to the value,
anything else is `none` (standing for `NaN`, which no `includes` check
accepts). -/
def jsNumber (s : String) : Option Int :=
  match s.data with
  | '-' :: cs => (digitsVal cs).map (fun n => -(n : Int))
  | cs => (digitsVal cs).map (fun n => (n : Int))

/-! ## Regular-expression model for the q filter

`GET /tasks` passes the (trimmed) `q` parameter to MongoDB as
`{ $regex: q, $options: "i" }`, i.e. an unanchored case-insensitive
regular-expression search over `title`. We model the pattern subset in
which every character is a literal except `.`, which matches any single
character; patterns using other metacharacters are outside this model. -/

inductive RegexItem where
  | lit (c : Char)
  | dot
deriving DecidableEq, Repr

def toRegexItems (pat : String) : List RegexItem :=
  pat.data.map (fun c => if c = '.' then RegexItem.dot else RegexItem.lit c)

/-- Case-insensitive single-character match. -/
def itemMatches : RegexItem → Char → Bool
  | RegexItem.dot, _ => true
  | RegexItem.lit l, c => l.toLower == c.toLower

/-- Does the pattern match some leading segment of the text? -/
def matchesHere : List RegexItem → List Char → Bool
  | [], _ => true
  | _ :: _, [] => false
  | it :: its, c :: cs => itemMatches it c && matchesHere its cs

/-- Does the pattern match anywhere in the text (unanchored search)? -/
def searchFrom (its : List RegexItem) : List Char → Bool
  | [] => matchesHere its []
  | c :: cs => matchesHere its (c :: cs) || searchFrom its cs

/-- Models the store evaluating `{ $regex: pat, $options: "i" }` against a
string field, for the supported pattern subset. -/
def regexTestI (pat s : String) : Bool :=
  searchFrom (toRegexItems pat) s.data

/-- Case-insensitive substring containment, written from the words of the
specification of the `q` filter ("case-insensitive substring match against
`title`"), to be compared with the regex semantics the code actually uses. -/
def ciSubstringOf (pat s : String) : Bool :=
  substrSearch (pat.data.map Char.toLower) (s.data.map Char.toLower)
where
  substrHere : List Char → List Char → Bool
    | [], _ => true
    | _ :: _, [] => false
    | p :: ps, c :: cs => p == c && substrHere ps cs
  substrSearch (p : List Char) : List Char → Bool
    | [] => substrHere p []
    | c :: cs => substrHere p (c :: cs) || substrSearch p cs

/-! ## GET /tasks -/

/-- The recognised query parameters of `GET /tasks` (absent = not supplied;
query-string values are strings). -/
structure ListQuery where
  status : Option String := none
  priority : Option String := none
  tag : Option String := none
  q : Option String := none
  sort : Option String := none
  dir : Option String := none
deriving Repr

/-- The `where` object the handler builds (server.js lines 54–61). -/
structure TaskWhere where
  status : Option String := none
  priority : Option Int := none
  tags : Option String := none
  titleRegex : Option String := none
deriving DecidableEq, Repr

/-- Builds the `where` filter: `status` kept only when truthy and in the
enum, `priority` only when truthy and `Number(priority)` is 1, 2 or 3,
`tag` trimmed and kept when nonempty, `q` trimmed and kept as a
case-insensitive regex when nonempty. Invalid values are dropped. -/
def buildWhere (qy : ListQuery) : TaskWhere :=
  { status := match qy.status with
      | some s => if !(s == "") && validStatus s then some s else none
      | none => none
    priority := match qy.priority with
      | some ps =>
        match jsNumber ps with
        | some p => if !(ps == "") && validPriority p then some p else none
        | none => none
      | none => none
    tags := match qy.tag with
      | some g => if !(g == "") && !(jsTrim g == "") then some (jsTrim g) else none
      | none => none
    titleRegex := match qy.q with
      | some qs => if !(qs == "") && !(jsTrim qs == "") then some (jsTrim qs) else none
      | none => none }

/-- Store-side evaluation of the `where` filter against one document: an
absent key constrains nothing; `tags: value` matches documents whose `tags`
array contains the value; `title: {$regex: ..., $options: "i"}` is the
regex test. -/
def matchesWhere (w : TaskWhere) (t : Task) : Bool :=
  (match w.status with | some s => t.status == s | none => true) &&
  (match w.priority with | some p => t.priority == p | none => true) &&
  (match w.tags with | some g => t.tags.contains g | none => true) &&
  (match w.titleRegex with | some pat => regexTestI pat t.title | none => true)

/-- Comparison on the selected sort field, ascending. BSON null (absent
`dueDate`) sorts before dates. -/
def sortKeyCmp (field : String) (a b : Task) : Ordering :=
  match field with
  | "priority" => compare a.priority b.priority
  | "dueDate" =>
    match a.dueDate, b.dueDate with
    | none, none => Ordering.eq
    | none, some _ => Ordering.lt
    | some _, none => Ordering.gt
    | some x, some y => compare x y
  | "title" => compare a.title b.title
  | _ => compare a.createdAt b.createdAt

/-- The total order `.sort({ [sortField]: sortDir, _id: -1 })` sorts by:
the field in the requested direction, ties broken by `_id` descending. -/
def taskLE (field : String) (dirAsc : Bool) (a b : Task) : Bool :=
  match (if dirAsc then sortKeyCmp field a b else (sortKeyCmp field a b).swap) with
  | Ordering.lt => true
  | Ordering.gt => false
  | Ordering.eq => b.id ≤ a.id

/-- The handler of `GET /tasks`: builds `where`, resolves the sort field
through `sortMap` (unknown names fall back to `createdAt`) and the
direction (`asc` case-insensitively, else descending), and returns the
matching documents in sorted order. Always returns a list; an empty result
is the empty list. -/
def listTasks (qy : ListQuery) (store : List Task) : List Task :=
  let w := buildWhere qy
  let sortName := qy.sort.getD "createdAt"
  let sortField :=
    if ["createdAt", "priority", "dueDate", "title"].contains sortName then sortName
    else "createdAt"
  let dirAsc := (qy.dir.getD "desc").toLower == "asc"
  (store.filter (matchesWhere w)).insertionSort
    (fun a b => taskLE sortField dirAsc a b = true)

/-! ## POST /tasks -/

/-- A JSON value in the `title` position of a create body: absent, a
string, or a number (standing for any non-string JSON value, whose
truthiness the handler also checks). -/
inductive JsVal where
  | undef
  | str (s : String)
  | num (n : Int)
deriving DecidableEq, Repr

def JsVal.truthy : JsVal → Bool
  | JsVal.undef => false
  | JsVal.str s => !(s == "")
  | JsVal.num n => !(n == 0)

def JsVal.isStringVal : JsVal → Bool
  | JsVal.str _ => true
  | _ => false

/-- The `tags` position of a create body: absent, a JSON array of strings,
or some non-array value (which `Array.isArray(tags) ? tags : []` turns
into the empty list). -/
inductive TagsVal where
  | undef
  | arr (tags : List String)
  | nonArray
deriving DecidableEq, Repr

def TagsVal.toTags : TagsVal → List String
  | TagsVal.arr ts => ts
  | _ => []

/-- The request body of `POST /tasks`. Destructuring defaults in the
handler: `notes = ""`, `priority = 2`, `dueDate = null`, `tags = []`,
`status = "todo"`. Numeric JSON values are modelled as integers
(`Number()` is the identity on them); a `dueDate` value is modelled by the
epoch timestamp `new Date(dueDate)` denotes, with `0` the falsy value the
`dueDate ? ... : null` test sends to null. -/
structure CreateBody where
  title : JsVal := JsVal.undef
  notes : Option String := none
  priority : Option Int := none
  dueDate : Option Int := none
  tags : TagsVal := TagsVal.undef
  status : Option String := none
deriving Repr

/-- The document `Task.create` is handed: body fields after the handler's
destructuring defaults and coercions, `completedAt` left to its schema
default null. -/
def createdDoc (b : CreateBody) (now : Int) (newId : String) : Task :=
  { id := newId
    title := match b.title with | JsVal.str s => s | _ => ""
    notes := b.notes.getD ""
    status := b.status.getD "todo"
    priority := b.priority.getD 2
    dueDate := match b.dueDate with
      | some d => if d == 0 then none else some d
      | none => none
    tags := b.tags.toTags
    completedAt := none
    createdAt := now
    updatedAt := now }

/-- The handler of `POST /tasks`: rejects a falsy or non-string `title`
with 400 before touching the store; otherwise builds the document (note:
`completedAt` is not set, so the schema default null applies, even when the
body carries `status: "done"`), which the store persists if it passes
schema validation and rejects (caught, 400) otherwise. -/
def createTask (b : CreateBody) (now : Int) (newId : String) (store : List Task) :
    Except (Nat × String) Task × List Task :=
  if !(b.title.truthy && b.title.isStringVal) then
    (Except.error (400, "title is required"), store)
  else
    let doc := createdDoc b now newId
    if taskSchemaValid doc then (Except.ok doc, store ++ [doc])
    else (Except.error (400, "validation failed"), store)

/-! ## PATCH /tasks/:id -/

/-- The request body of `PATCH /tasks/:id`: `none` means the key is absent
(`k in req.body` false). `dueDate`'s inner option distinguishes
`"dueDate": null` from a timestamp; `completedAt` can be supplied by the
caller but is not in the handler's allow-list. -/
structure UpdateBody where
  title : Option String := none
  notes : Option String := none
  status : Option String := none
  priority : Option Int := none
  dueDate : Option (Option Int) := none
  tags : Option (List String) := none
  completedAt : Option (Option Int) := none
deriving Repr

/-- The `update` object the handler assembles: for each allow-listed key
present in the body, its value; `completedAt` only ever set by the
status-transition rule. -/
structure TaskUpdate where
  title : Option String := none
  notes : Option String := none
  status : Option String := none
  priority : Option Int := none
  dueDate : Option (Option Int) := none
  tags : Option (List String) := none
  completedAt : Option (Option Int) := none
deriving DecidableEq, Repr

/-- The allow-list copy loop (`for (const k of allowed) if (k in req.body)
update[k] = req.body[k]`): exactly `title, notes, status, priority,
dueDate, tags` are copied; a body-supplied `completedAt` is never read. -/
def buildUpdate (b : UpdateBody) : TaskUpdate :=
  { title := b.title
    notes := b.notes
    status := b.status
    priority := b.priority
    dueDate := b.dueDate
    tags := b.tags
    completedAt := none }

/-- The `update.dueDate ? new Date(update.dueDate) : null` coercion: a
present falsy value (null, or the falsy timestamp 0) becomes null. -/
def coerceDueDate : Option (Option Int) → Option (Option Int)
  | some (some d) => if d == 0 then some none else some (some d)
  | some none => some none
  | none => none

/-- The `update` object after the allow-list copy and the `priority` /
`dueDate` coercions (server.js lines 122–127). -/
def coercedUpdate (b : UpdateBody) : TaskUpdate :=
  { buildUpdate b with dueDate := coerceDueDate b.dueDate }

/-- The `update` object as it reaches `findByIdAndUpdate` when the body
carries `status`, with the fetched document's current status applied to
the transition rule (server.js lines 129–138): non-done → done sets
`completedAt` to now, done → non-done sets it to null, otherwise it is
left out of the update. -/
def effUpdate (b : UpdateBody) (t : Task) (now : Int) : TaskUpdate :=
  match b.status with
  | some nextStatus =>
    if !(t.status == "done") && nextStatus == "done" then
      { coercedUpdate b with completedAt := some (some now) }
    else if t.status == "done" && !(nextStatus == "done") then
      { coercedUpdate b with completedAt := some none }
    else coercedUpdate b
  | none => coercedUpdate b

/-- Validation run by `findByIdAndUpdate(..., { runValidators: true })` on
the updated paths: a set `title` must satisfy `required`, a set `status`
and `priority` their enums. -/
def updateValid (u : TaskUpdate) : Bool :=
  (match u.title with | some s => !(s == "") | none => true) &&
  (match u.status with | some s => validStatus s | none => true) &&
  (match u.priority with | some p => validPriority p | none => true)

/-- Applying a `$set`-style update to a document: set fields replace, the
rest survive; `timestamps: true` refreshes `updatedAt`. -/
def applyUpdate (u : TaskUpdate) (now : Int) (t : Task) : Task :=
  { t with
    title := u.title.getD t.title
    notes := u.notes.getD t.notes
    status := u.status.getD t.status
    priority := u.priority.getD t.priority
    dueDate := match u.dueDate with | some d => d | none => t.dueDate
    tags := u.tags.getD t.tags
    completedAt := match u.completedAt with | some c => c | none => t.completedAt
    updatedAt := now }

/-- Models `Task.findByIdAndUpdate(id, update, { new: true, runValidators:
true })`: 404-style `none` when no document matches, a validation failure
throws (caught by the handler as 400), otherwise the updated document is
persisted and returned. -/
def findByIdAndUpdate (id : String) (u : TaskUpdate) (now : Int) (store : List Task) :
    Except (Nat × String) Task × List Task :=
  match store.find? (fun t => t.id == id) with
  | none => (Except.error (404, "not found"), store)
  | some t =>
    if updateValid u then
      let t2 := applyUpdate u now t
      (Except.ok t2, store.map (fun x => if x.id == id then t2 else x))
    else (Except.error (400, "validation failed"), store)

/-- The handler of `PATCH /tasks/:id`: malformed id → 400 before any store
access; then the allow-list copy and coercions; when the body carries
`status`, the current document is fetched (404 when absent) and the
status-transition rule decides `completedAt`: non-done → done sets it to
now, done → non-done clears it, otherwise it is left alone; finally
`findByIdAndUpdate` applies the update. -/
def updateTask (id : String) (b : UpdateBody) (now : Int) (store : List Task) :
    Except (Nat × String) Task × List Task :=
  if !isValidObjectId id then (Except.error (400, "invalid id"), store)
  else
    match b.status with
    | some _ =>
      match store.find? (fun t => t.id == id) with
      | none => (Except.error (404, "not found"), store)
      | some current => findByIdAndUpdate id (effUpdate b current now) now store
    | none => findByIdAndUpdate id (coercedUpdate b) now store

/-! ## DELETE /tasks/:id -/

/-- The handler of `DELETE /tasks/:id`: malformed id → 400 before any
store access; then `findByIdAndDelete` (404 when absent, else the document
is removed and `{ok: true}` returned). -/
def deleteTask (id : String) (store : List Task) :
    Except (Nat × String) Bool × List Task :=
  if !isValidObjectId id then (Except.error (400, "invalid id"), store)
  else
    match store.find? (fun t => t.id == id) with
    | none => (Except.error (404, "not found"), store)
    | some _ => (Except.ok true, store.filter (fun t => !(t.id == id)))

/-! ## Focus endpoints -/

/-- The handler of `POST /focus/start`: a truthy, well-formed `taskId` is
kept, anything else silently dropped; the session is created open
(`endedAt = startedAt`, `durationMin = 0`). -/
def startFocus (taskId : Option String) (now : Int) (newId : String)
    (sessions : List FocusSession) : FocusSession × List FocusSession :=
  let tid := match taskId with
    | some t => if !(t == "") && isValidObjectId t then some t else none
    | none => none
  let doc : FocusSession :=
    { id := newId, taskId := tid, startedAt := now, endedAt := now,
      durationMin := 0, createdAt := now, updatedAt := now }
  (doc, sessions ++ [doc])

/-- JS `Math.round(ms / 60000)`: Math.round is ⌊x + 1/2⌋ (halves round
toward +∞), and for the exact rational ms/60000 that is
⌊(ms + 30000) / 60000⌋. -/
def roundMinutes (ms : Int) : Int := (ms + 30000).fdiv 60000

/-- The handler of `POST /focus/stop`: falsy or malformed `sessionId` →
400, unknown session → 404; otherwise elapsed minutes are
`Math.max(0, Math.round((now − startedAt) / 60000))` and the session is
persisted with `endedAt = now` and that duration. -/
def stopFocus (sessionId : Option String) (now : Int)
    (sessions : List FocusSession) :
    Except (Nat × String) FocusSession × List FocusSession :=
  match sessionId with
  | none => (Except.error (400, "sessionId required"), sessions)
  | some sid =>
    if sid == "" || !isValidObjectId sid then
      (Except.error (400, "sessionId required"), sessions)
    else
      match sessions.find? (fun s => s.id == sid) with
      | none => (Except.error (404, "session not found"), sessions)
      | some s =>
        let s2 := { s with
          endedAt := now,
          durationMin := max 0 (roundMinutes (now - s.startedAt)),
          updatedAt := now }
        (Except.ok s2, sessions.map (fun x => if x.id == sid then s2 else x))

/-! ## GET /stats/overview -/

/-- Models `Task.countDocuments({status: "done", completedAt: {$gte:
todayStart}})`; a null `completedAt` never satisfies a `$gte` date
comparison. -/
def todayCompleted (tz now : Int) (store : List Task) : Nat :=
  (store.filter (fun t =>
    t.status == "done" &&
    (match t.completedAt with
     | some c => startOfDay tz now ≤ c
     | none => false))).length

/-- The aggregation pipeline: match done tasks with `completedAt ≥
startOfNDaysAgo(60)` and project each onto its `$dateToString %Y-%m-%d`
day (a UTC day); the grouped day keys are the set `daysWith`. -/
def doneDayBuckets (tz now : Int) (store : List Task) : List Int :=
  store.filterMap (fun t =>
    match t.completedAt with
    | some c =>
      if t.status == "done" && startOfNDaysAgo tz now 60 ≤ c then some (utcDay c)
      else none
    | none => none)

/-- The streak loop of the handler, with explicit fuel: at offset `i` the
key compared against `daysWith` is `startOfNDaysAgo(i).toISOString()
.slice(0, 10)` — the UTC day of the local midnight `i` days ago; the loop
stops at the first miss. -/
def streakScan (daysWith : List Int) (tz now : Int) : Nat → Nat → Nat
  | 0, _ => 0
  | fuel + 1, i =>
    if daysWith.contains (utcDay (startOfNDaysAgo tz now i)) then
      1 + streakScan daysWith tz now fuel (i + 1)
    else 0

/-- The streak `GET /stats/overview` reports: 60 iterations starting at
offset 0. -/
def statsStreak (tz now : Int) (store : List Task) : Nat :=
  streakScan (doneDayBuckets tz now store) tz now 60 0

/-- Models the FocusSession aggregation: sessions with `startedAt ≥
startOfNDaysAgo(6)` (trailing 7 calendar days including today), summing
`durationMin`. -/
def weeklyFocusMinutes (tz now : Int) (sessions : List FocusSession) : Int :=
  ((sessions.filter (fun s => startOfNDaysAgo tz now 6 ≤ s.startedAt)).map
    (fun s => s.durationMin)).sum

/-! ## The specification's streak, for comparison

The specification demands day-bucketing "by calendar day in a single fixed
reference". The following definitions read the streak off the
specification's words, with UTC as the fixed reference: a day is covered
iff some done task's `completedAt` falls on that UTC calendar day, and the
streak counts consecutive covered days backward from today. -/

def specCoveredDay (store : List Task) (day : Int) : Bool :=
  store.any (fun t =>
    t.status == "done" &&
    (match t.completedAt with
     | some c => utcDay c == day
     | none => false))

def specStreakScan (store : List Task) (today : Int) : Nat → Nat → Nat
  | 0, _ => 0
  | fuel + 1, i =>
    if specCoveredDay store (today - i) then 1 + specStreakScan store today fuel (i + 1)
    else 0

/-- The streak as specified, under the single fixed (UTC) day reference. -/
def specStreak (now : Int) (store : List Task) : Nat :=
  specStreakScan store (utcDay now) 60 0

/-! ## Request boundary (error containment)

Whether a route's handler body is wrapped in try/catch decides what a
failing (rejecting) store call does: caught → JSON error response;
uncaught → the rejection escapes the async handler and no response is
produced by it. -/

inductive Route where
  | root
  | health
  | tasksList
  | tasksCreate
  | tasksPatch
  | tasksDelete
  | statsRoute
  | focusStart
  | focusStop
  | focusList
deriving DecidableEq, Repr

/-- Which handlers wrap their store calls in try/catch in server.js: all of
them except `GET /tasks` (lines 50–74), whose body has no try/catch. -/
def hasCatch : Route → Bool
  | Route.tasksList => false
  | _ => true

/-- Whether the handler performs a store call at all (`/` and `/health`
respond without one). -/
def usesStore : Route → Bool
  | Route.root => false
  | Route.health => false
  | _ => true

/-- The status code a handler's catch block answers with when a store call
throws: 500 for `/stats/overview`, 400 for the rest. -/
def catchCode : Route → Nat
  | Route.statsRoute => 500
  | _ => 400

/-- What a request observes at the boundary. -/
inductive Outcome where
  | responds (code : Nat)
  | escapes
deriving DecidableEq, Repr

/-- Outcome of a request to a route when every store call the handler makes
fails: routes without a store call still respond 200, handlers with
try/catch respond with their catch code, and a handler without try/catch
lets the rejection escape. -/
def outcomeOnStoreFailure (r : Route) : Outcome :=
  if !usesStore r then Outcome.responds 200
  else if hasCatch r then Outcome.responds (catchCode r)
  else Outcome.escapes

/-! ## Concrete documents used in the theorems -/

/-- A well-formed ObjectId (24 hex characters). -/
def hexId : String := "aaaaaaaaaaaaaaaaaaaaaaaa"

def hexId2 : String := "bbbbbbbbbbbbbbbbbbbbbbbb"

/-- A task in status `todo` with no completion timestamp. -/
def todoTask : Task :=
  { id := hexId, title := "x", notes := "", status := "todo", priority := 2,
    dueDate := none, tags := [], completedAt := none, createdAt := 0, updatedAt := 0 }

/-- A `done` task completed at 2024-10-04T12:00:00Z (epoch ms
1728043200000, UTC noon), used as the streak failing input. -/
def skewDoneTask : Task :=
  { id := hexId, title := "x", notes := "", status := "done", priority := 2,
    dueDate := none, tags := [], completedAt := some 1728043200000,
    createdAt := 0, updatedAt := 0 }

/-- An open focus session started at epoch 0. -/
def openSession : FocusSession :=
  { id := hexId, taskId := none, startedAt := 0, endedAt := 0,
    durationMin := 0, createdAt := 0, updatedAt := 0 }

/-- A stopped 15-minute session inside the trailing week of
1728043200000. -/
def weekSessA : FocusSession :=
  { id := "aaaaaaaaaaaaaaaaaaaaaaa1", taskId := none, startedAt := 1728000000000,
    endedAt := 1728000900000, durationMin := 15, createdAt := 1728000000000,
    updatedAt := 1728000900000 }

/-- A stopped 30-minute session inside the same week. -/
def weekSessB : FocusSession :=
  { id := "aaaaaaaaaaaaaaaaaaaaaaa2", taskId := none, startedAt := 1728001000000,
    endedAt := 1728002800000, durationMin := 30, createdAt := 1728001000000,
    updatedAt := 1728002800000 }

/-- An open session inside the same week, exactly as `POST /focus/start`
creates it. -/
def weekOpen : FocusSession :=
  (startFocus none 1728003600000 "aaaaaaaaaaaaaaaaaaaaaaa3" []).1

/-- The create body of the C10 scenario: a valid title with a
caller-supplied `status: "done"`. -/
def doneBody : CreateBody :=
  { title := JsVal.str "ship release", status := some "done" }

/-- The document that body creates. -/
def doneDoc : Task := createdDoc doneBody 1728043200000 hexId

/-- A create body with a non-empty text title but a status outside the
schema enum. -/
def badStatusBody : CreateBody :=
  { title := JsVal.str "write spec", status := some "banana" }

/-- A task whose title is a single letter, against which the pattern `.`
matches although it is not a substring. -/
def dotTask : Task :=
  { id := hexId, title := "x", notes := "", status := "todo", priority := 2,
    dueDate := none, tags := [], completedAt := none, createdAt := 0, updatedAt := 0 }

/-- A task matching the witness filter combination. -/
def filterTask : Task :=
  { id := hexId, title := "Write home report", notes := "", status := "done",
    priority := 2, dueDate := none, tags := ["home"], completedAt := some 5,
    createdAt := 0, updatedAt := 0 }

/-- The filter combination of the C7 witness. -/
def filterQuery : ListQuery :=
  { status := some "done", priority := some "2", tag := some " home ", q := some "write" }

/-- The document produced by patching `todoTask` to `done` at time 55
(the C1 witness update). -/
def donePatchResult : Task :=
  applyUpdate (effUpdate { status := some "done" } todoTask 55) 55 todoTask

/-- The body of the C9 witness: a new title plus a caller-supplied
`completedAt`, which the allow-list ignores. -/
def frameBody : UpdateBody := { title := some "renamed", completedAt := some (some 99) }

/-- The document that witness update produces. -/
def frameResult : Task := applyUpdate (effUpdate frameBody todoTask 55) 55 todoTask

/-! ## Helper lemmas -/

lemma find?_map_replace (id : String) (t2 : Task) (hid : (t2.id == id) = true)
    (store : List Task) (t : Task)
    (h : store.find? (fun x => x.id == id) = some t) :
    (store.map (fun x => if x.id == id then t2 else x)).find? (fun x => x.id == id)
      = some t2 := by
  induction store with
  | nil => simp at h
  | cons a l ih =>
    by_cases ha : a.id = id
    · simp [List.find?_cons, ha, hid]
    · have ha' : (a.id == id) = false := by simpa using ha
      rw [List.find?_cons_of_neg _ (by simp [ha'])] at h
      simp only [List.map_cons, ha', if_false, Bool.false_eq_true]
      rw [List.find?_cons_of_neg _ (by simp [ha'])]
      exact ih h

lemma updateTask_cases (id : String) (b : UpdateBody) (now : Int) (store : List Task) :
    (∃ e, updateTask id b now store = (Except.error e, store)) ∨
    (∃ t, store.find? (fun x => x.id == id) = some t ∧
      updateValid (effUpdate b t now) = true ∧
      updateTask id b now store
        = (Except.ok (applyUpdate (effUpdate b t now) now t),
           store.map (fun x =>
             if x.id == id then applyUpdate (effUpdate b t now) now t else x))) := by
  unfold updateTask
  by_cases hv : isValidObjectId id = true
  · simp only [hv, Bool.not_true, Bool.false_eq_true, if_false]
    cases hb : b.status with
    | none =>
      unfold findByIdAndUpdate
      cases hf : store.find? (fun x => x.id == id) with
      | none => exact Or.inl ⟨(404, "not found"), rfl⟩
      | some t =>
        have heq : coercedUpdate b = effUpdate b t now := by
          simp [effUpdate, hb]
        rw [heq]
        by_cases hval : updateValid (effUpdate b t now) = true
        · simp only [hval, if_true]
          exact Or.inr ⟨t, rfl, hval, rfl⟩
        · simp only [hval, Bool.false_eq_true, if_false]
          exact Or.inl ⟨(400, "validation failed"), rfl⟩
    | some st =>
      cases hf : store.find? (fun x => x.id == id) with
      | none => exact Or.inl ⟨(404, "not found"), rfl⟩
      | some t =>
        unfold findByIdAndUpdate
        rw [hf]
        by_cases hval : updateValid (effUpdate b t now) = true
        · simp only [hval, if_true]
          exact Or.inr ⟨t, rfl, hval, rfl⟩
        · simp only [hval, Bool.false_eq_true, if_false]
          exact Or.inl ⟨(400, "validation failed"), rfl⟩
  · have hv' : isValidObjectId id = false := by simpa using hv
    exact Or.inl ⟨(400, "invalid id"), by simp [hv']⟩

lemma updateTask_store_of_error (id : String) (b : UpdateBody) (now : Int)
    (store : List Task) (e : Nat × String)
    (h : (updateTask id b now store).1 = Except.error e) :
    (updateTask id b now store).2 = store := by
  rcases updateTask_cases id b now store with ⟨e', he⟩ | ⟨t, _, _, he⟩
  · rw [he]
  · rw [he] at h
    simp at h

lemma updateTask_ok_inv (id : String) (b : UpdateBody) (now : Int)
    (store : List Task) (u : Task)
    (h : (updateTask id b now store).1 = Except.ok u) :
    ∃ t, store.find? (fun x => x.id == id) = some t ∧
      u = applyUpdate (effUpdate b t now) now t ∧
      (updateTask id b now store).2
        = store.map (fun x => if x.id == id then u else x) := by
  rcases updateTask_cases id b now store with ⟨e, he⟩ | ⟨t, hf, _, he⟩
  · rw [he] at h
    simp at h
  · rw [he] at h
    have hu : u = applyUpdate (effUpdate b t now) now t := by
      simpa using h.symm
    exact ⟨t, hf, hu, by rw [he, hu]⟩

lemma effUpdate_fields (b : UpdateBody) (t : Task) (now : Int) :
    (effUpdate b t now).title = b.title
    ∧ (effUpdate b t now).notes = b.notes
    ∧ (effUpdate b t now).status = b.status
    ∧ (effUpdate b t now).priority = b.priority
    ∧ (effUpdate b t now).dueDate = coerceDueDate b.dueDate
    ∧ (effUpdate b t now).tags = b.tags := by
  unfold effUpdate coercedUpdate buildUpdate
  cases b.status with
  | none => exact ⟨rfl, rfl, rfl, rfl, rfl, rfl⟩
  | some st =>
    dsimp only
    split_ifs <;> exact ⟨rfl, rfl, rfl, rfl, rfl, rfl⟩

lemma sum_filter_eq_sum_ite {α : Type} (p : α → Bool) (f : α → Int) (l : List α) :
    ((l.filter p).map f).sum = (l.map (fun s => if p s then f s else 0)).sum := by
  induction l with
  | nil => rfl
  | cons a l ih =>
    by_cases hp : p a
    · simp [List.filter_cons, hp, ih]
    · simp [List.filter_cons, hp, ih]

/-! ## Agreement of the streak with the specification under a UTC clock

The C2 divergence is caused by mixing the local-midnight scan keys with
UTC aggregation buckets. The following lemmas show the two computations
agree whenever the two references coincide, i.e. when the server's local
offset is zero. -/

lemma utcDay_mul_le (c : Int) : utcDay c * msPerDay ≤ c := by
  unfold utcDay msPerDay
  rw [Int.fdiv_eq_ediv _ (by norm_num)]
  have h1 := Int.ediv_add_emod c 86400000
  have h2 := Int.emod_nonneg c (by norm_num : (86400000 : Int) ≠ 0)
  omega

lemma utcDay_startOfNDaysAgo_utc (now : Int) (n : Nat) :
    utcDay (startOfNDaysAgo 0 now n) = utcDay now - n := by
  unfold startOfNDaysAgo startOfDay utcDay msPerDay
  simp only [add_zero, sub_zero]
  have h : now.fdiv 86400000 * 86400000 - (n : Int) * 86400000
      = (now.fdiv 86400000 - n) * 86400000 := by ring
  rw [h, Int.mul_fdiv_cancel _ (by norm_num)]

lemma startOfNDaysAgo_utc_eq (now : Int) (n : Nat) :
    startOfNDaysAgo 0 now n = (utcDay now - n) * msPerDay := by
  unfold startOfNDaysAgo startOfDay utcDay msPerDay
  simp only [add_zero, sub_zero]
  ring

lemma specCoveredDay_iff (store : List Task) (day : Int) :
    specCoveredDay store day = true
      ↔ ∃ t ∈ store, t.status = "done"
          ∧ ∃ c, t.completedAt = some c ∧ utcDay c = day := by
  unfold specCoveredDay
  rw [List.any_eq_true]
  constructor
  · rintro ⟨t, ht, hp⟩
    rw [Bool.and_eq_true] at hp
    obtain ⟨h1, h2⟩ := hp
    refine ⟨t, ht, by simpa using h1, ?_⟩
    cases hc : t.completedAt with
    | none => rw [hc] at h2; simp at h2
    | some c =>
      rw [hc] at h2
      exact ⟨c, rfl, by simpa using h2⟩
  · rintro ⟨t, ht, h1, c, hc, h2⟩
    refine ⟨t, ht, ?_⟩
    rw [Bool.and_eq_true]
    refine ⟨by simpa using h1, ?_⟩
    rw [hc]
    simpa using h2

lemma doneDayBuckets_contains_iff (tz now : Int) (store : List Task) (day : Int) :
    (doneDayBuckets tz now store).contains day = true
      ↔ ∃ t ∈ store, t.status = "done"
          ∧ ∃ c, t.completedAt = some c ∧ startOfNDaysAgo tz now 60 ≤ c
              ∧ utcDay c = day := by
  unfold doneDayBuckets
  rw [List.contains_iff_exists_mem_beq]
  constructor
  · rintro ⟨d, hd, hbeq⟩
    have hday : day = d := by simpa using hbeq
    subst hday
    rw [List.mem_filterMap] at hd
    obtain ⟨t, ht, hf⟩ := hd
    cases hc : t.completedAt with
    | none => rw [hc] at hf; simp at hf
    | some c =>
      rw [hc] at hf
      by_cases hcond :
          (t.status == "done" && decide (startOfNDaysAgo tz now 60 ≤ c)) = true
      · rw [Bool.and_eq_true] at hcond
        obtain ⟨hc1, hc2⟩ := hcond
        have hc1' : t.status = "done" := by simpa using hc1
        have hc2' : startOfNDaysAgo tz now 60 ≤ c := by simpa using hc2
        have hval : utcDay c = day := by
          simp [hc1', hc2'] at hf
          exact hf
        exact ⟨t, ht, hc1', c, hc, hc2', hval⟩
      · simp only [Bool.not_eq_true] at hcond
        simp [hcond] at hf
  · rintro ⟨t, ht, h1, c, hc, h2, h3⟩
    refine ⟨day, ?_, by simp⟩
    rw [List.mem_filterMap]
    refine ⟨t, ht, ?_⟩
    rw [hc]
    simp [h1, h2, h3]

lemma streak_cond_agree (now : Int) (store : List Task) (i : Nat) (hi : i ≤ 59) :
    (doneDayBuckets 0 now store).contains (utcDay now - i)
      = specCoveredDay store (utcDay now - i) := by
  rw [Bool.eq_iff_iff, doneDayBuckets_contains_iff, specCoveredDay_iff]
  constructor
  · rintro ⟨t, ht, h1, c, hc, _, h3⟩
    exact ⟨t, ht, h1, c, hc, h3⟩
  · rintro ⟨t, ht, h1, c, hc, h3⟩
    refine ⟨t, ht, h1, c, hc, ?_, h3⟩
    rw [startOfNDaysAgo_utc_eq]
    have hle : utcDay c * msPerDay ≤ c := utcDay_mul_le c
    have hmul : (utcDay now - (60 : Nat)) * msPerDay ≤ (utcDay now - i) * msPerDay := by
      apply mul_le_mul_of_nonneg_right
      · push_cast
        omega
      · unfold msPerDay
        norm_num
    calc (utcDay now - (60 : Nat)) * msPerDay
        ≤ (utcDay now - i) * msPerDay := hmul
      _ = utcDay c * msPerDay := by rw [h3]
      _ ≤ c := hle

lemma streakScan_eq_specStreakScan (now : Int) (store : List Task) :
    ∀ (fuel i : Nat), i + fuel ≤ 60 →
      streakScan (doneDayBuckets 0 now store) 0 now fuel i
        = specStreakScan store (utcDay now) fuel i := by
  intro fuel
  induction fuel with
  | zero => intro i _; rfl
  | succ f ih =>
    intro i h
    have hi : i ≤ 59 := by omega
    simp only [streakScan, specStreakScan]
    rw [utcDay_startOfNDaysAgo_utc now i, streak_cond_agree now store i hi]
    by_cases hc : specCoveredDay store (utcDay now - i) = true
    · rw [if_pos hc, if_pos hc, ih (i + 1) (by omega)]
    · simp only [Bool.not_eq_true] at hc
      rw [hc]
      simp

/-- When the server's clock offset is zero — local midnight and the UTC
day boundary coincide — the handler's streak equals the specification's
fixed-reference streak on every store and every clock value. -/
theorem statsStreak_utc_eq_specStreak (now : Int) (store : List Task) :
    statsStreak 0 now store = specStreak now store := by
  unfold statsStreak specStreak
  exact streakScan_eq_specStreakScan now store 60 0 (by omega)

/-! ## Agreement of the q regex with substring search

For patterns without the `.` wildcard (the only metacharacter in the
modelled subset) the regex test coincides with case-insensitive substring
containment, delimiting exactly when the q filter behaves as the
specification words it. -/

lemma matchesHere_eq_substrHere (p : List Char) (hp : ∀ c ∈ p, c ≠ '.') :
    ∀ cs : List Char,
      matchesHere (p.map (fun c => if c = '.' then RegexItem.dot else RegexItem.lit c)) cs
        = ciSubstringOf.substrHere (p.map Char.toLower) (cs.map Char.toLower) := by
  induction p with
  | nil => intro cs; rfl
  | cons a p ih =>
    intro cs
    have ha : a ≠ '.' := hp a (by simp)
    have hp' : ∀ c ∈ p, c ≠ '.' := fun c hc => hp c (by simp [hc])
    cases cs with
    | nil => simp [matchesHere, ciSubstringOf.substrHere, ha]
    | cons c cs =>
      simp only [List.map_cons, matchesHere, ciSubstringOf.substrHere, ha, if_neg]
      rw [ih hp' cs]
      rfl

lemma searchFrom_eq_substrSearch (p : List Char) (hp : ∀ c ∈ p, c ≠ '.') :
    ∀ cs : List Char,
      searchFrom (p.map (fun c => if c = '.' then RegexItem.dot else RegexItem.lit c)) cs
        = ciSubstringOf.substrSearch (p.map Char.toLower) (cs.map Char.toLower) := by
  intro cs
  induction cs with
  | nil =>
    simp only [List.map_nil, searchFrom, ciSubstringOf.substrSearch]
    exact matchesHere_eq_substrHere p hp []
  | cons c cs ih =>
    simp only [List.map_cons, searchFrom, ciSubstringOf.substrSearch]
    rw [ih]
    have h := matchesHere_eq_substrHere p hp (c :: cs)
    rw [List.map_cons] at h
    rw [h]

/-- For a pattern without regex metacharacters (in the modelled subset:
without `.`), the store's case-insensitive regex test is exactly
case-insensitive substring containment — so the q filter deviates from the
specification's "substring match" reading only on patterns carrying
metacharacters. -/
theorem regexTestI_eq_ciSubstringOf (pat s : String)
    (h : ∀ c ∈ pat.data, c ≠ '.') :
    regexTestI pat s = ciSubstringOf pat s := by
  unfold regexTestI ciSubstringOf toRegexItems
  exact searchFrom_eq_substrSearch pat.data h s.data

/-! ## Claim theorems -/

/-- C2: the streak computation does not bucket by calendar day in a single
fixed reference. Failing input: the server runs at UTC+2 (tz = 7200000 ms)
and a task is completed at `now` = 1728043200000 (2024-10-04T12:00:00Z,
14:00 local). Under any single fixed day reference today is covered, so
the specified streak is 1 (second conjunct, UTC reference); the handler
reports 0 (first conjunct), because the aggregation buckets the completion
into UTC day 2024-10-04 while the scan key for offset 0 is
`startOfNDaysAgo(0).toISOString().slice(0,10)` = 2024-10-03, local
midnight rendered in UTC. With tz = 0 the same store yields 1 (third
conjunct), confirming the divergence is the mixed day reference. -/
theorem streak_day_bucketing_divergence :
    statsStreak 7200000 1728043200000 [skewDoneTask] = 0
    ∧ specStreak 1728043200000 [skewDoneTask] = 1
    ∧ statsStreak 0 1728043200000 [skewDoneTask] = 1 := by
  refine ⟨by decide, by decide, by decide⟩

/-- C4: stopping a found session sets `endedAt` to the stop time and
`durationMin` to `Math.round((now − startedAt)/60000)` floored at 0
(`roundMinutes` is that rounding), and the result is never negative, also
when `now < startedAt`. -/
theorem stop_focus_duration (sid : String) (now : Int) (ss : List FocusSession)
    (s : FocusSession)
    (hsid : ((sid == "") || !isValidObjectId sid) = false)
    (hfind : ss.find? (fun x => x.id == sid) = some s) :
    (stopFocus (some sid) now ss).1
      = Except.ok { s with
          endedAt := now
          durationMin := max 0 (roundMinutes (now - s.startedAt))
          updatedAt := now }
    ∧ 0 ≤ max 0 (roundMinutes (now - s.startedAt)) := by
  constructor
  · simp only [stopFocus, hsid, Bool.false_eq_true, if_false, hfind]
  · exact le_max_left 0 _

/-- Witness for C4 at a concrete input: session started at 0, stopped at
90000 ms (1.5 min, rounding to 2). -/
theorem stop_focus_duration_witness :
    (stopFocus (some hexId) 90000 [openSession]).1
      = Except.ok { openSession with
          endedAt := 90000
          durationMin := max 0 (roundMinutes (90000 - openSession.startedAt))
          updatedAt := 90000 }
    ∧ 0 ≤ max 0 (roundMinutes (90000 - openSession.startedAt)) :=
  stop_focus_duration hexId 90000 [openSession] openSession (by decide) (by decide)

/-- C5: a failing store call in `GET /tasks` escapes the handler — its
body is the only one not wrapped in try/catch — so the error is not
converted into a JSON error response at the request boundary. -/
theorem tasks_list_store_failure_escapes :
    outcomeOnStoreFailure Route.tasksList = Outcome.escapes := rfl

/-- Every route other than `GET /tasks` answers a failing store call with
an HTTP response (its catch code, or 200 when it makes no store call). -/
theorem other_routes_respond_on_store_failure :
    ∀ r : Route, r ≠ Route.tasksList → outcomeOnStoreFailure r ≠ Outcome.escapes := by
  intro r hr
  cases r <;> first
  | exact absurd rfl hr
  | decide

/-- C8: a syntactically invalid id makes PATCH and DELETE answer 400
"invalid id" with the store untouched; the response is the same for every
store, body and clock, so the store is not consulted, and the status is
400 — not 404, not 500. -/
theorem invalid_id_rejected_before_store (id : String) (b : UpdateBody) (now : Int)
    (store : List Task) (h : isValidObjectId id = false) :
    updateTask id b now store = (Except.error (400, "invalid id"), store)
    ∧ deleteTask id store = (Except.error (400, "invalid id"), store) := by
  unfold updateTask deleteTask
  simp [h]

/-- Witness for C8 at the malformed id "tasks123" (neither 12 nor 24
characters). -/
theorem invalid_id_rejected_before_store_witness :
    updateTask "tasks123" {} 0 [] = (Except.error (400, "invalid id"), [])
    ∧ deleteTask "tasks123" [] = (Except.error (400, "invalid id"), []) :=
  invalid_id_rejected_before_store "tasks123" {} 0 [] (by decide)

/-- C10: `POST /tasks` with a valid title and caller-supplied
`status: "done"` persists a task whose status is done while `completedAt`
is absent — the completion side effect belongs to the PATCH transition
rule only, so Create does not establish "completedAt present iff done". -/
theorem create_done_status_no_completedAt :
    (createTask doneBody 1728043200000 hexId []).1 = Except.ok doneDoc
    ∧ (createTask doneBody 1728043200000 hexId []).2 = [doneDoc]
    ∧ doneDoc.status = "done"
    ∧ doneDoc.completedAt = none := by
  refine ⟨rfl, rfl, rfl, rfl⟩

/-- C1: the status-transition rule of `PATCH /tasks/:id` on an existing
task `t`: (i) a body without `status` leaves the persisted `completedAt`
unchanged; (ii) a body whose `status` equals the current status leaves it
unchanged; (iii) when the update is applied and moves a non-done task to
done, the persisted `completedAt` is the handler's current time; (iv) when
the update is applied and moves a done task to a non-done status, the
persisted `completedAt` is absent. -/
theorem update_status_transition_rule (id : String) (b : UpdateBody) (now : Int)
    (store : List Task) (t : Task)
    (hfind : store.find? (fun x => x.id == id) = some t) :
    (b.status = none →
      ((updateTask id b now store).2.find? (fun x => x.id == id)).map Task.completedAt
        = some t.completedAt)
    ∧ (∀ st, b.status = some st → st = t.status →
      ((updateTask id b now store).2.find? (fun x => x.id == id)).map Task.completedAt
        = some t.completedAt)
    ∧ (∀ u, (updateTask id b now store).1 = Except.ok u → ¬ t.status = "done" →
      b.status = some "done" →
      ((updateTask id b now store).2.find? (fun x => x.id == id)).map Task.completedAt
        = some (some now))
    ∧ (∀ st u, (updateTask id b now store).1 = Except.ok u → t.status = "done" →
      b.status = some st → ¬ st = "done" →
      ((updateTask id b now store).2.find? (fun x => x.id == id)).map Task.completedAt
        = some none) := by
  have hid : (t.id == id) = true := by
    have h := List.find?_some hfind
    simpa using h
  refine ⟨?_, ?_, ?_, ?_⟩
  · intro hb
    cases hok : (updateTask id b now store).1 with
    | error e =>
      rw [updateTask_store_of_error id b now store e hok, hfind]
      rfl
    | ok u =>
      obtain ⟨t', hf', hu, hst⟩ := updateTask_ok_inv id b now store u hok
      have ht' : t' = t := by
        rw [hfind] at hf'
        exact (Option.some.inj hf').symm
      rw [ht'] at hu
      have huid : (u.id == id) = true := by rw [hu]; exact hid
      rw [hst, find?_map_replace id u huid store t hfind]
      simp only [Option.map_some']
      rw [hu]
      simp [applyUpdate, effUpdate, hb, coercedUpdate, buildUpdate]
  · intro st hb hst'
    cases hok : (updateTask id b now store).1 with
    | error e =>
      rw [updateTask_store_of_error id b now store e hok, hfind]
      rfl
    | ok u =>
      obtain ⟨t', hf', hu, hstq⟩ := updateTask_ok_inv id b now store u hok
      have ht' : t' = t := by
        rw [hfind] at hf'
        exact (Option.some.inj hf').symm
      rw [ht'] at hu
      have huid : (u.id == id) = true := by rw [hu]; exact hid
      rw [hstq, find?_map_replace id u huid store t hfind]
      simp only [Option.map_some']
      rw [hu]
      subst hst'
      by_cases hd : t.status == "done"
      · simp [applyUpdate, effUpdate, hb, hd, coercedUpdate, buildUpdate]
      · simp only [Bool.not_eq_true] at hd
        simp [applyUpdate, effUpdate, hb, hd, coercedUpdate, buildUpdate]
  · intro u hok hne hb
    obtain ⟨t', hf', hu, hstq⟩ := updateTask_ok_inv id b now store u hok
    have ht' : t' = t := by
      rw [hfind] at hf'
      exact (Option.some.inj hf').symm
    rw [ht'] at hu
    have huid : (u.id == id) = true := by rw [hu]; exact hid
    have hbf : (t.status == "done") = false := by simp [hne]
    rw [hstq, find?_map_replace id u huid store t hfind]
    simp only [Option.map_some']
    rw [hu]
    simp [applyUpdate, effUpdate, hb, hbf]
  · intro st u hok hbt hb hstne
    obtain ⟨t', hf', hu, hstq⟩ := updateTask_ok_inv id b now store u hok
    have ht' : t' = t := by
      rw [hfind] at hf'
      exact (Option.some.inj hf').symm
    rw [ht'] at hu
    have huid : (u.id == id) = true := by rw [hu]; exact hid
    have hbt' : (t.status == "done") = true := by simp [hbt]
    have hstf : (st == "done") = false := by simp [hstne]
    rw [hstq, find?_map_replace id u huid store t hfind]
    simp only [Option.map_some']
    rw [hu]
    simp [applyUpdate, effUpdate, hb, hbt', hstf]

/-- Witness for C1: a `todo` task patched to `done` at time 55 is
persisted with `completedAt = 55`. -/
theorem update_status_transition_rule_witness :
    ((updateTask hexId { status := some "done" } 55 [todoTask]).2.find?
      (fun x => x.id == hexId)).map Task.completedAt = some (some 55) :=
  (update_status_transition_rule hexId { status := some "done" } 55 [todoTask]
    todoTask (by decide)).2.2.1 donePatchResult rfl (by decide) rfl


/-- C9: the frame of `PATCH /tasks/:id` on a successful update of an
existing task `t`: the identifier and `createdAt` are unchanged,
`updatedAt` becomes now, each allow-listed field equals the body's value
when supplied and the old value otherwise, `completedAt` is untouched when
the body has no `status`, and the whole request is insensitive to a
caller-supplied `completedAt` in the body. -/
theorem update_allowlist_frame (id : String) (b : UpdateBody) (now : Int)
    (store : List Task) (t u : Task)
    (hfind : store.find? (fun x => x.id == id) = some t)
    (hok : (updateTask id b now store).1 = Except.ok u) :
    u.id = t.id
    ∧ u.createdAt = t.createdAt
    ∧ u.updatedAt = now
    ∧ u.title = b.title.getD t.title
    ∧ u.notes = b.notes.getD t.notes
    ∧ u.status = b.status.getD t.status
    ∧ u.priority = b.priority.getD t.priority
    ∧ u.dueDate = (match coerceDueDate b.dueDate with
        | some d => d
        | none => t.dueDate)
    ∧ u.tags = b.tags.getD t.tags
    ∧ (b.status = none → u.completedAt = t.completedAt)
    ∧ (∀ x, updateTask id { b with completedAt := x } now store
        = updateTask id b now store) := by
  obtain ⟨t', hf', hu, _⟩ := updateTask_ok_inv id b now store u hok
  have ht' : t' = t := by
    rw [hfind] at hf'
    exact (Option.some.inj hf').symm
  rw [ht'] at hu
  obtain ⟨he1, he2, he3, he4, he5, he6⟩ := effUpdate_fields b t now
  subst hu
  refine ⟨rfl, rfl, rfl, ?_, ?_, ?_, ?_, ?_, ?_, ?_, fun x => rfl⟩
  · simp [applyUpdate, he1]
  · simp [applyUpdate, he2]
  · simp [applyUpdate, he3]
  · simp [applyUpdate, he4]
  · simp [applyUpdate, he5]
  · simp [applyUpdate, he6]
  · intro hb
    simp [applyUpdate, effUpdate, hb, coercedUpdate, buildUpdate]

/-- Witness for C9 at a concrete input: the update keeps id and
`createdAt`, takes the body's title, and ignores the body's
`completedAt`. -/
theorem update_allowlist_frame_witness :
    frameResult.id = todoTask.id
    ∧ frameResult.createdAt = todoTask.createdAt
    ∧ frameResult.title = frameBody.title.getD todoTask.title :=
  have h := update_allowlist_frame hexId frameBody 55 [todoTask] todoTask frameResult
    (by decide) rfl
  ⟨h.1, h.2.1, h.2.2.2.1⟩

/-- C3: `weeklyFocusMinutes` sums `durationMin` over exactly the sessions
with `startedAt` at or after the start of the day six days ago (first
conjunct, an element-wise reformulation of the aggregation); a session
just created by `POST /focus/start` — an open session — contributes
nothing, because its `durationMin` is 0 (second conjunct); and the
specification's scenario of stopped 15- and 30-minute sessions plus one
open session inside the window totals 45 (third conjunct). -/
theorem weekly_focus_minutes_window :
    (∀ tz now ss, weeklyFocusMinutes tz now ss
        = (ss.map (fun s =>
            if startOfNDaysAgo tz now 6 ≤ s.startedAt then s.durationMin else 0)).sum)
    ∧ (∀ tz now ss tid t0 sid,
        weeklyFocusMinutes tz now (ss ++ [(startFocus tid t0 sid ss).1])
          = weeklyFocusMinutes tz now ss)
    ∧ weeklyFocusMinutes 0 1728043200000 [weekSessA, weekSessB, weekOpen] = 45 := by
  refine ⟨?_, ?_, by decide⟩
  · intro tz now ss
    rw [weeklyFocusMinutes, sum_filter_eq_sum_ite]
    simp
  · intro tz now ss tid t0 sid
    unfold weeklyFocusMinutes
    rw [List.filter_append, List.map_append, List.sum_append]
    by_cases hc : startOfNDaysAgo tz now 6 ≤ t0
    · simp [List.filter_cons, startFocus, hc]
    · simp [List.filter_cons, startFocus, hc]

/-- C6 counterexample: a create body with the non-empty text title
"write spec" still fails (mongoose schema validation rejects the
caller-supplied `status: "banana"`), answering 400 with the store left
unchanged — so a non-empty text title does not suffice for Create to
succeed. -/
theorem create_valid_title_can_fail_cex :
    badStatusBody.title = JsVal.str "write spec"
    ∧ ("write spec" == "") = false
    ∧ createTask badStatusBody 0 hexId [] = (Except.error (400, "validation failed"), []) :=
  ⟨rfl, by decide, rfl⟩

/-- C6 as amended: a falsy or non-string title is rejected with 400 and
the store unchanged; a non-empty string title whose accompanying fields
pass schema validation (status and priority in their enums, after
defaulting) is persisted as `createdDoc` with the §3 defaults applied. -/
theorem create_title_validation (b : CreateBody) (now : Int) (nid : String)
    (store : List Task) :
    ((b.title.truthy && b.title.isStringVal) = false →
      createTask b now nid store = (Except.error (400, "title is required"), store))
    ∧ (∀ s, b.title = JsVal.str s → (s == "") = false →
        validStatus (b.status.getD "todo") = true →
        validPriority (b.priority.getD 2) = true →
        createTask b now nid store
          = (Except.ok (createdDoc b now nid), store ++ [createdDoc b now nid])
        ∧ (createdDoc b now nid).completedAt = none
        ∧ (createdDoc b now nid).notes = b.notes.getD ""
        ∧ (createdDoc b now nid).status = b.status.getD "todo"
        ∧ (createdDoc b now nid).priority = b.priority.getD 2
        ∧ (createdDoc b now nid).tags = b.tags.toTags) := by
  constructor
  · intro h
    simp [createTask, h]
  · intro s hs hse hstat hprio
    have htr : (b.title.truthy && b.title.isStringVal) = true := by
      rw [hs]
      simp [JsVal.truthy, JsVal.isStringVal, hse]
    have hvalid : taskSchemaValid (createdDoc b now nid) = true := by
      simp [taskSchemaValid, createdDoc, hs, hse, hstat, hprio]
    refine ⟨?_, rfl, rfl, rfl, rfl, rfl⟩
    simp [createTask, htr, hvalid]

/-- Witness for C6: an absent title is rejected; the body
`{title: "buy milk", priority: 3}` is persisted. -/
theorem create_title_validation_witness :
    createTask { title := JsVal.undef } 0 hexId []
      = (Except.error (400, "title is required"), [])
    ∧ createTask { title := JsVal.str "buy milk", priority := some 3 } 0 hexId []
      = (Except.ok (createdDoc { title := JsVal.str "buy milk", priority := some 3 } 0 hexId),
         [] ++ [createdDoc { title := JsVal.str "buy milk", priority := some 3 } 0 hexId]) :=
  ⟨(create_title_validation { title := JsVal.undef } 0 hexId []).1 (by decide),
   ((create_title_validation { title := JsVal.str "buy milk", priority := some 3 } 0 hexId []).2
     "buy milk" rfl (by decide) (by decide) (by decide)).1⟩

/-- C7 counterexample: with the filter `q = "."` the handler returns the
task titled "x", although "." is not a case-insensitive substring of "x":
the q value reaches the store as a regular expression, in which `.`
matches any character, not as a literal substring. -/
theorem list_q_regex_not_substring_cex :
    dotTask ∈ listTasks { q := some "." } [dotTask]
    ∧ ciSubstringOf "." "x" = false
    ∧ dotTask.title = "x" := by
  refine ⟨by decide, by decide, rfl⟩

/-- C7 as amended: every task returned by `GET /tasks` comes from the
store and satisfies each supplied valid filter — equal status, equal
(parsed) priority, trimmed tag among `tags`, and title matching the
trimmed q as a case-insensitive regular expression (substring match only
for metacharacter-free patterns); an invalid status or priority value is
silently ignored, leaving the result as if the parameter were absent; and
an empty store yields the empty list rather than an error. -/
theorem list_filters_sound (qy : ListQuery) (store : List Task) (t : Task)
    (ht : t ∈ listTasks qy store) :
    t ∈ store
    ∧ (∀ s, qy.status = some s → (s == "") = false → validStatus s = true →
        t.status = s)
    ∧ (∀ ps p, qy.priority = some ps → (ps == "") = false → jsNumber ps = some p →
        validPriority p = true → t.priority = p)
    ∧ (∀ g, qy.tag = some g → (g == "") = false → (jsTrim g == "") = false →
        t.tags.contains (jsTrim g) = true)
    ∧ (∀ qs, qy.q = some qs → (qs == "") = false → (jsTrim qs == "") = false →
        regexTestI (jsTrim qs) t.title = true)
    ∧ (∀ s, qy.status = some s → validStatus s = false →
        listTasks qy store = listTasks { qy with status := none } store)
    ∧ (∀ ps, qy.priority = some ps →
        (∀ p, jsNumber ps = some p → validPriority p = false) →
        listTasks qy store = listTasks { qy with priority := none } store)
    ∧ listTasks qy ([] : List Task) = [] := by
  have hmem : t ∈ store.filter (matchesWhere (buildWhere qy)) := by
    simp only [listTasks] at ht
    exact ((List.perm_insertionSort _ _).mem_iff).mp ht
  rw [List.mem_filter] at hmem
  obtain ⟨hts, hmw⟩ := hmem
  simp only [matchesWhere, Bool.and_eq_true] at hmw
  obtain ⟨⟨⟨hw1, hw2⟩, hw3⟩, hw4⟩ := hmw
  refine ⟨hts, ?_, ?_, ?_, ?_, ?_, ?_, ?_⟩
  · intro s hqs hse hsv
    have hbs : (buildWhere qy).status = some s := by
      simp [buildWhere, hqs, hse, hsv]
    rw [hbs] at hw1
    simpa using hw1
  · intro ps p hqp hpse hjn hpv
    have hbp : (buildWhere qy).priority = some p := by
      simp [buildWhere, hqp, hpse, hjn, hpv]
    rw [hbp] at hw2
    simpa using hw2
  · intro g hqg hgse hgt
    have hbg : (buildWhere qy).tags = some (jsTrim g) := by
      simp [buildWhere, hqg, hgse, hgt]
    rw [hbg] at hw3
    simpa using hw3
  · intro qs hqq hqse hqt
    have hbq : (buildWhere qy).titleRegex = some (jsTrim qs) := by
      simp [buildWhere, hqq, hqse, hqt]
    rw [hbq] at hw4
    simpa using hw4
  · intro s hqs hsv
    have hbw : buildWhere qy = buildWhere { qy with status := none } := by
      simp [buildWhere, hqs, hsv]
    simp only [listTasks]
    rw [hbw]
  · intro ps hqp hinv
    have hbw : buildWhere qy = buildWhere { qy with priority := none } := by
      cases hn : jsNumber ps with
      | none => simp [buildWhere, hqp, hn]
      | some p => simp [buildWhere, hqp, hn, hinv p hn]
    simp only [listTasks]
    rw [hbw]
  · simp [listTasks]

/-- Witness for C7: the combined filters status done, priority 2, tag
" home ", q "write" return `filterTask`, which satisfies each of them. -/
theorem list_filters_sound_witness :
    filterTask ∈ [filterTask]
    ∧ filterTask.status = "done"
    ∧ filterTask.priority = 2
    ∧ filterTask.tags.contains (jsTrim " home ") = true
    ∧ regexTestI (jsTrim "write") filterTask.title = true :=
  have h := list_filters_sound filterQuery [filterTask] filterTask (by decide)
  ⟨h.1, h.2.1 "done" rfl (by decide) (by decide),
   h.2.2.1 "2" 2 rfl (by decide) (by decide) (by decide),
   h.2.2.2.1 " home " rfl (by decide) (by decide),
   h.2.2.2.2.1 "write" rfl (by decide) (by decide)⟩

end SmartTaskTracker
